import Mathlib

/-!
Verification of the color detection and remapping engine of the Canvas
re-branding tool (src/app.py): the palette table `COLOR_MAP`, the derived
reverse indices `ALL_PRIMARIES` / `ALL_SECONDARIES` / `ALL_ACCENTS`, and the
rewriter `replace_colors` built on the per-token closure `replace_color`
driven by the regex scan for `#[0-9a-fA-F]{6}` tokens.
-/

/-- One institution's palette entry, mirroring the dict values of `COLOR_MAP`
in src/app.py. -/
structure Palette where
  primary : String
  secondary : String
  accent : String
  full_name : String
deriving DecidableEq

/-- The static palette table of src/app.py (`COLOR_MAP`), in source order and
with the source's exact casing. -/
def COLOR_MAP : List (String × Palette) :=
  [ ("LACCD (District)",
      ⟨"#005a95", "#00345f", "#bb9e6d", "Los Angeles Community College District"⟩),
    ("ELAC (East LA)",
      ⟨"#447D29", "#33511D", "#FDB913", "East Los Angeles College"⟩),
    ("LACC (LA City)",
      ⟨"#C13C40", "#305589", "#112844", "Los Angeles City College"⟩),
    ("LAHC (LA Harbor)",
      ⟨"#5F7FE2", "#002663", "#FFC72C", "Los Angeles Harbor College"⟩),
    ("LAMC (LA Mission)",
      ⟨"#004590", "#FF611A", "#718089", "Los Angeles Mission College"⟩),
    ("LAPC (LA Pierce)",
      ⟨"#BF2116", "#1F1F1F", "#FFFFFF", "Los Angeles Pierce College"⟩),
    ("LASC (LA Southwest)",
      ⟨"#C5B358", "#000000", "#FFFFFF", "Los Angeles Southwest College"⟩),
    ("LATTC (LA Trade-Tech)",
      ⟨"#562c82", "#1c1c1c", "#aea4eb", "Los Angeles Trade-Technical College"⟩),
    ("LAVC (LA Valley)",
      ⟨"#00593F", "#FFC72C", "#FFFFFF", "Los Angeles Valley College"⟩),
    ("WLAC (West LA)",
      ⟨"#4169E1", "#003594", "#FFD700", "West Los Angeles College"⟩) ]

/-- Python `str.lower()` restricted to the ASCII strings this program
compares (hex color tokens and the palette strings). -/
def lowerS (s : String) : String :=
  String.mk (s.data.map Char.toLower)

/-- Membership in the regex character class `[0-9a-fA-F]`. -/
def isHexDigit (c : Char) : Bool :=
  (decide ('0' ≤ c) && decide (c ≤ '9')) ||
  (decide ('a' ≤ c) && decide (c ≤ 'f')) ||
  (decide ('A' ≤ c) && decide (c ≤ 'F'))

/-- Dict indexing `COLOR_MAP[k]`: the table's keys are distinct, so first
match equals Python's unique-key dict lookup. -/
def getPalette (k : String) : Option Palette :=
  match COLOR_MAP.find? (fun kv => kv.1 == k) with
  | some kv => some kv.2
  | none => none

/-- A dict comprehension `{lower(role v): k for k, v in COLOR_MAP.items()}`:
iteration in table order, a later entry with the same color overwrites an
earlier one (last write wins). -/
def dictLookup (role : Palette → String) (c : String) : Option String :=
  COLOR_MAP.foldl (fun acc kv => if lowerS (role kv.2) = c then some kv.1 else acc) none

/-- Reverse index `ALL_PRIMARIES` of src/app.py, as a lookup function. -/
def ALL_PRIMARIES (c : String) : Option String :=
  dictLookup Palette.primary c

/-- Reverse index `ALL_SECONDARIES` of src/app.py, as a lookup function. -/
def ALL_SECONDARIES (c : String) : Option String :=
  dictLookup Palette.secondary c

/-- Reverse index `ALL_ACCENTS` of src/app.py, as a lookup function. -/
def ALL_ACCENTS (c : String) : Option String :=
  dictLookup Palette.accent c

/-- The roles of the spec's data model. -/
inductive Role
  | primary
  | secondary
  | accent
deriving DecidableEq

/-- The target's color for a role. -/
def roleColor (p : Palette) : Role → String
  | Role.primary => p.primary
  | Role.secondary => p.secondary
  | Role.accent => p.accent

/-- The tag the change records of src/app.py use for a role. -/
def roleName : Role → String
  | Role.primary => "Primary"
  | Role.secondary => "Secondary"
  | Role.accent => "Accent"

/-- The spec's `lookup_role`: classify a canonical color by consulting the
reverse indices in the order primary, secondary, accent (first match wins),
which is exactly the order of the `elif` chain in `replace_color`. -/
def lookup_role (c : String) : Option (String × Role) :=
  match ALL_PRIMARIES c with
  | some j => some (j, Role.primary)
  | none =>
    match ALL_SECONDARIES c with
    | some j => some (j, Role.secondary)
    | none =>
      match ALL_ACCENTS c with
      | some j => some (j, Role.accent)
      | none => none

/-- The change-record string `replace_color` appends for a known-color
substitution under a given role. -/
def changeRecord (r : Role) (color src : String) (tc : Palette) : String :=
  roleName r ++ ": " ++ color ++ " (" ++ src ++ ") -> " ++ roleColor tc r

/-- The per-match closure `replace_color` of src/app.py (lines 128-161):
given the matched token, returns the replacement text together with the
change records it appends. -/
def replace_color (target_colors : Palette) (target_college : String)
    (replace_all : Bool) (tok : String) : String × List String :=
  if lowerS tok = lowerS target_colors.primary then (tok, [])
  else if lowerS tok = lowerS target_colors.secondary then (tok, [])
  else if lowerS tok = lowerS target_colors.accent then (tok, [])
  else if replace_all then
    (target_colors.primary,
      ["Color: " ++ lowerS tok ++ " -> " ++ target_colors.primary])
  else
    match ALL_PRIMARIES (lowerS tok) with
    | some source_college =>
      if source_college ≠ target_college then
        (target_colors.primary,
          [changeRecord Role.primary (lowerS tok) source_college target_colors])
      else (tok, [])
    | none =>
      match ALL_SECONDARIES (lowerS tok) with
      | some source_college =>
        if source_college ≠ target_college then
          (target_colors.secondary,
            [changeRecord Role.secondary (lowerS tok) source_college target_colors])
        else (tok, [])
      | none =>
        match ALL_ACCENTS (lowerS tok) with
        | some source_college =>
          if source_college ≠ target_college then
            (target_colors.accent,
              [changeRecord Role.accent (lowerS tok) source_college target_colors])
          else (tok, [])
        | none => (tok, [])

/-- Whether the regex matches at the current position: a `#` followed by six
hex digits. -/
def startsTok : List Char → Bool
  | [] => false
  | c :: l =>
    decide (c = '#') && decide ((l.take 6).length = 6) && (l.take 6).all isHexDigit

/-- Fueled version of the regex scan; the fuel only bounds the recursion depth
(one unit per character advanced) and `scan` always supplies enough. -/
def scanF (tc : Palette) (tid : String) (ra : Bool) : Nat → List Char → List Char × List String
  | _, [] => ([], [])
  | 0, c :: l => (c :: l, [])
  | n + 1, c :: l =>
    if startsTok (c :: l) then
      let r := replace_color tc tid ra (String.mk ('#' :: l.take 6))
      let s := scanF tc tid ra n (l.drop 6)
      (r.1.data ++ s.1, r.2 ++ s.2)
    else
      let s := scanF tc tid ra n l
      (c :: s.1, s.2)

/-- The left-to-right scan of `re.sub(r"#[0-9a-fA-F]{6}", replace_color, text)`:
at a `#` followed by six hex digits, the seven-character token is handed to
`replace_color` and the scan resumes after it; otherwise the scan advances by
one character.  Returns the rewritten character list and the change records
in match order. -/
def scan (tc : Palette) (tid : String) (ra : Bool) (cs : List Char) : List Char × List String :=
  scanF tc tid ra cs.length cs

/-- Function `replace_colors` of src/app.py (lines 110-164): empty content is returned
unchanged before the registry is consulted; an unregistered target makes the
dict indexing `COLOR_MAP[target_college]` raise `KeyError` (modelled as
`Except.error`); otherwise the text is rewritten by the regex scan. -/
def replace_colors (html_content : String) (target_college : String)
    (replace_all : Bool) : Except String (String × List String) :=
  if html_content = "" then Except.ok (html_content, [])
  else
    match getPalette target_college with
    | none => Except.error target_college
    | some target_colors =>
      let s := scan target_colors target_college replace_all html_content.data
      Except.ok (String.mk s.1, s.2)

/-- Fueled version of the token enumeration matching `scanF`. -/
def tokensF : Nat → List Char → List String
  | _, [] => []
  | 0, _ :: _ => []
  | n + 1, c :: l =>
    if startsTok (c :: l) then
      String.mk ('#' :: l.take 6) :: tokensF n (l.drop 6)
    else
      tokensF n l

/-- The token sequence the scan matches, in scan order (used to count
occurrences). -/
def tokens (cs : List Char) : List String :=
  tokensF cs.length cs

/-- A well-formed color token: `#` followed by exactly six hex digits. -/
def isHexToken (s : String) : Bool :=
  startsTok s.data && decide (s.data.length = 7)

lemma scanF_nil (tc : Palette) (tid : String) (ra : Bool) (n : Nat) :
    scanF tc tid ra n [] = ([], []) := by
  cases n <;> rfl

lemma scanF_congr (tc : Palette) (tid : String) (ra : Bool) :
    ∀ m n cs, cs.length ≤ m → cs.length ≤ n →
      scanF tc tid ra m cs = scanF tc tid ra n cs := by
  intro m
  induction m with
  | zero =>
    intro n cs hm _
    have hcs : cs = [] := List.eq_nil_of_length_eq_zero (Nat.le_zero.mp hm)
    subst hcs
    rw [scanF_nil, scanF_nil]
  | succ m ih =>
    intro n cs hm hn
    match cs, n with
    | [], n => rw [scanF_nil, scanF_nil]
    | c :: l, 0 => simp at hn
    | c :: l, n + 1 =>
      simp only [List.length_cons, Nat.add_le_add_iff_right] at hm hn
      simp only [scanF]
      by_cases hs : startsTok (c :: l) = true
      · simp only [hs, if_true]
        have hd : (l.drop 6).length ≤ m := by
          have := List.length_drop 6 l
          omega
        have hd' : (l.drop 6).length ≤ n := by
          have := List.length_drop 6 l
          omega
        rw [ih n (l.drop 6) hd hd']
      · simp only [hs, if_false, Bool.false_eq_true]
        rw [ih n l hm hn]

lemma scan_nil (tc : Palette) (tid : String) (ra : Bool) :
    scan tc tid ra [] = ([], []) := rfl

lemma scan_advance (tc : Palette) (tid : String) (ra : Bool) (c : Char) (l : List Char)
    (h : startsTok (c :: l) = false) :
    scan tc tid ra (c :: l) = (c :: (scan tc tid ra l).1, (scan tc tid ra l).2) := by
  unfold scan
  simp only [List.length_cons, scanF, h, if_false, Bool.false_eq_true]

lemma startsTok_token (c1 c2 c3 c4 c5 c6 : Char) (rest : List Char)
    (h1 : isHexDigit c1 = true) (h2 : isHexDigit c2 = true) (h3 : isHexDigit c3 = true)
    (h4 : isHexDigit c4 = true) (h5 : isHexDigit c5 = true) (h6 : isHexDigit c6 = true) :
    startsTok ('#' :: c1 :: c2 :: c3 :: c4 :: c5 :: c6 :: rest) = true := by
  simp [startsTok, List.take_succ_cons, h1, h2, h3, h4, h5, h6]

lemma scan_token (tc : Palette) (tid : String) (ra : Bool)
    (c1 c2 c3 c4 c5 c6 : Char) (rest : List Char)
    (h1 : isHexDigit c1 = true) (h2 : isHexDigit c2 = true) (h3 : isHexDigit c3 = true)
    (h4 : isHexDigit c4 = true) (h5 : isHexDigit c5 = true) (h6 : isHexDigit c6 = true) :
    scan tc tid ra ('#' :: c1 :: c2 :: c3 :: c4 :: c5 :: c6 :: rest) =
      ((replace_color tc tid ra (String.mk ['#', c1, c2, c3, c4, c5, c6])).1.data ++
         (scan tc tid ra rest).1,
       (replace_color tc tid ra (String.mk ['#', c1, c2, c3, c4, c5, c6])).2 ++
         (scan tc tid ra rest).2) := by
  unfold scan
  simp only [List.length_cons, scanF,
    startsTok_token c1 c2 c3 c4 c5 c6 rest h1 h2 h3 h4 h5 h6, if_true,
    List.take_succ_cons, List.take_zero, List.drop_succ_cons, List.drop_zero]
  rw [scanF_congr tc tid ra _ rest.length rest (by omega) (Nat.le_refl _)]

lemma tokensF_nil (n : Nat) : tokensF n [] = [] := by
  cases n <;> rfl

lemma tokensF_congr :
    ∀ m n cs, cs.length ≤ m → cs.length ≤ n → tokensF m cs = tokensF n cs := by
  intro m
  induction m with
  | zero =>
    intro n cs hm _
    have hcs : cs = [] := List.eq_nil_of_length_eq_zero (Nat.le_zero.mp hm)
    subst hcs
    rw [tokensF_nil, tokensF_nil]
  | succ m ih =>
    intro n cs hm hn
    match cs, n with
    | [], n => rw [tokensF_nil, tokensF_nil]
    | c :: l, 0 => simp at hn
    | c :: l, n + 1 =>
      simp only [List.length_cons, Nat.add_le_add_iff_right] at hm hn
      simp only [tokensF]
      by_cases hs : startsTok (c :: l) = true
      · simp only [hs, if_true]
        have hd : (l.drop 6).length ≤ m := by
          have := List.length_drop 6 l
          omega
        have hd' : (l.drop 6).length ≤ n := by
          have := List.length_drop 6 l
          omega
        rw [ih n (l.drop 6) hd hd']
      · simp only [hs, if_false, Bool.false_eq_true]
        rw [ih n l hm hn]

lemma tokens_nil : tokens [] = [] := rfl

lemma tokens_advance (c : Char) (l : List Char) (h : startsTok (c :: l) = false) :
    tokens (c :: l) = tokens l := by
  unfold tokens
  simp only [List.length_cons, tokensF, h, if_false, Bool.false_eq_true]

lemma tokens_token (c1 c2 c3 c4 c5 c6 : Char) (rest : List Char)
    (h1 : isHexDigit c1 = true) (h2 : isHexDigit c2 = true) (h3 : isHexDigit c3 = true)
    (h4 : isHexDigit c4 = true) (h5 : isHexDigit c5 = true) (h6 : isHexDigit c6 = true) :
    tokens ('#' :: c1 :: c2 :: c3 :: c4 :: c5 :: c6 :: rest) =
      String.mk ['#', c1, c2, c3, c4, c5, c6] :: tokens rest := by
  unfold tokens
  simp only [List.length_cons, tokensF,
    startsTok_token c1 c2 c3 c4 c5 c6 rest h1 h2 h3 h4 h5 h6, if_true,
    List.take_succ_cons, List.take_zero, List.drop_succ_cons, List.drop_zero]
  rw [tokensF_congr _ rest.length rest (by omega) (Nat.le_refl _)]

lemma isHexToken_destruct (s : String) (h : isHexToken s = true) :
    ∃ c1 c2 c3 c4 c5 c6, s.data = ['#', c1, c2, c3, c4, c5, c6] ∧
      isHexDigit c1 = true ∧ isHexDigit c2 = true ∧ isHexDigit c3 = true ∧
      isHexDigit c4 = true ∧ isHexDigit c5 = true ∧ isHexDigit c6 = true := by
  unfold isHexToken startsTok at h
  rcases s with ⟨data⟩
  rcases data with _ | ⟨c, l⟩
  · simp at h
  · simp only [Bool.and_eq_true, decide_eq_true_eq] at h
    obtain ⟨⟨⟨hc, _⟩, hall⟩, hlen⟩ := h
    subst hc
    simp only [List.length_cons, Nat.add_right_cancel_iff] at hlen
    rcases l with _ | ⟨c1, _ | ⟨c2, _ | ⟨c3, _ | ⟨c4, _ | ⟨c5, _ | ⟨c6, rest⟩⟩⟩⟩⟩⟩ <;>
      simp_all
    exact ⟨c1, c2, c3, c4, c5, c6, ⟨rfl, rfl, rfl, rfl, rfl, rfl⟩, hall⟩

lemma isHexToken_mk (c1 c2 c3 c4 c5 c6 : Char)
    (h1 : isHexDigit c1 = true) (h2 : isHexDigit c2 = true) (h3 : isHexDigit c3 = true)
    (h4 : isHexDigit c4 = true) (h5 : isHexDigit c5 = true) (h6 : isHexDigit c6 = true) :
    isHexToken (String.mk ['#', c1, c2, c3, c4, c5, c6]) = true := by
  simp [isHexToken, startsTok, h1, h2, h3, h4, h5, h6]

lemma getPalette_mem (k : String) (p : Palette) (h : getPalette k = some p) :
    (k, p) ∈ COLOR_MAP := by
  unfold getPalette at h
  rcases hf : COLOR_MAP.find? (fun kv => kv.1 == k) with _ | kv
  · rw [hf] at h
    simp at h
  · rw [hf] at h
    simp only [Option.some.injEq] at h
    have hmem := List.mem_of_find?_eq_some hf
    have hk := List.find?_some hf
    simp only [beq_iff_eq] at hk
    subst h
    subst hk
    exact hmem

lemma palette_valid (k : String) (p : Palette) (h : getPalette k = some p) :
    isHexToken p.primary = true ∧ isHexToken p.secondary = true ∧
      isHexToken p.accent = true := by
  have hmem := getPalette_mem k p h
  have hall : ∀ kv ∈ COLOR_MAP, isHexToken kv.2.primary = true ∧
      isHexToken kv.2.secondary = true ∧ isHexToken kv.2.accent = true := by decide
  exact hall (k, p) hmem

lemma rc_own (tc : Palette) (tid : String) (ra : Bool) (tok : String)
    (h : lowerS tok = lowerS tc.primary ∨ lowerS tok = lowerS tc.secondary ∨
      lowerS tok = lowerS tc.accent) :
    replace_color tc tid ra tok = (tok, []) := by
  unfold replace_color
  split_ifs with h1 h2 h3 h4 <;> first | rfl | tauto

lemma rc_unknown (tc : Palette) (tid : String) (tok : String)
    (hp : ALL_PRIMARIES (lowerS tok) = none)
    (hs : ALL_SECONDARIES (lowerS tok) = none)
    (ha : ALL_ACCENTS (lowerS tok) = none) :
    replace_color tc tid false tok = (tok, []) := by
  unfold replace_color
  split_ifs <;> first | rfl | simp_all [hp, hs, ha]

lemma rc_foreign_primary (tc : Palette) (tid : String) (tok : String) (J : String)
    (h1 : lowerS tok ≠ lowerS tc.primary) (h2 : lowerS tok ≠ lowerS tc.secondary)
    (h3 : lowerS tok ≠ lowerS tc.accent)
    (hp : ALL_PRIMARIES (lowerS tok) = some J) (hJ : J ≠ tid) :
    replace_color tc tid false tok =
      (tc.primary, [changeRecord Role.primary (lowerS tok) J tc]) := by
  unfold replace_color
  rw [if_neg h1, if_neg h2, if_neg h3]
  simp only [Bool.false_eq_true, if_false, hp, hJ, ite_true, if_pos, ne_eq,
    not_false_iff]

lemma rc_foreign_secondary (tc : Palette) (tid : String) (tok : String) (J : String)
    (h1 : lowerS tok ≠ lowerS tc.primary) (h2 : lowerS tok ≠ lowerS tc.secondary)
    (h3 : lowerS tok ≠ lowerS tc.accent)
    (hp : ALL_PRIMARIES (lowerS tok) = none)
    (hs : ALL_SECONDARIES (lowerS tok) = some J) (hJ : J ≠ tid) :
    replace_color tc tid false tok =
      (tc.secondary, [changeRecord Role.secondary (lowerS tok) J tc]) := by
  unfold replace_color
  rw [if_neg h1, if_neg h2, if_neg h3]
  simp only [Bool.false_eq_true, if_false, hp, hs, hJ, ite_true, ne_eq,
    not_false_iff]

lemma rc_foreign_accent (tc : Palette) (tid : String) (tok : String) (J : String)
    (h1 : lowerS tok ≠ lowerS tc.primary) (h2 : lowerS tok ≠ lowerS tc.secondary)
    (h3 : lowerS tok ≠ lowerS tc.accent)
    (hp : ALL_PRIMARIES (lowerS tok) = none)
    (hs : ALL_SECONDARIES (lowerS tok) = none)
    (ha : ALL_ACCENTS (lowerS tok) = some J) (hJ : J ≠ tid) :
    replace_color tc tid false tok =
      (tc.accent, [changeRecord Role.accent (lowerS tok) J tc]) := by
  unfold replace_color
  rw [if_neg h1, if_neg h2, if_neg h3]
  simp only [Bool.false_eq_true, if_false, hp, hs, ha, hJ, ite_true, ne_eq,
    not_false_iff]

lemma rc_replaceall (tc : Palette) (tid : String) (tok : String)
    (h1 : lowerS tok ≠ lowerS tc.primary) (h2 : lowerS tok ≠ lowerS tc.secondary)
    (h3 : lowerS tok ≠ lowerS tc.accent) :
    replace_color tc tid true tok =
      (tc.primary, ["Color: " ++ lowerS tok ++ " -> " ++ tc.primary]) := by
  unfold replace_color
  rw [if_neg h1, if_neg h2, if_neg h3]
  simp only [if_true]

/-- Every output of `replace_color` is either the token itself or one of the
target's three stored colors. -/
lemma rc_out (tc : Palette) (tid : String) (ra : Bool) (tok : String) :
    (replace_color tc tid ra tok).1 = tok ∨
    (replace_color tc tid ra tok).1 = tc.primary ∨
    (replace_color tc tid ra tok).1 = tc.secondary ∨
    (replace_color tc tid ra tok).1 = tc.accent := by
  rcases hP : ALL_PRIMARIES (lowerS tok) with _ | J1 <;>
    rcases hS : ALL_SECONDARIES (lowerS tok) with _ | J2 <;>
      rcases hA : ALL_ACCENTS (lowerS tok) with _ | J3 <;>
        simp only [replace_color, hP, hS, hA] <;> split_ifs <;> simp

/-- Applying `replace_color` in KnownOnly mode a second time to its own output
changes nothing and records nothing. -/
lemma rc_idem (tc : Palette) (tid : String) (tok : String) :
    replace_color tc tid false ((replace_color tc tid false tok).1) =
      ((replace_color tc tid false tok).1, []) := by
  by_cases h1 : lowerS tok = lowerS tc.primary
  · rw [rc_own tc tid false tok (Or.inl h1)]
    exact rc_own tc tid false tok (Or.inl h1)
  by_cases h2 : lowerS tok = lowerS tc.secondary
  · rw [rc_own tc tid false tok (Or.inr (Or.inl h2))]
    exact rc_own tc tid false tok (Or.inr (Or.inl h2))
  by_cases h3 : lowerS tok = lowerS tc.accent
  · rw [rc_own tc tid false tok (Or.inr (Or.inr h3))]
    exact rc_own tc tid false tok (Or.inr (Or.inr h3))
  rcases hP : ALL_PRIMARIES (lowerS tok) with _ | J1
  · rcases hS : ALL_SECONDARIES (lowerS tok) with _ | J2
    · rcases hA : ALL_ACCENTS (lowerS tok) with _ | J3
      · rw [rc_unknown tc tid tok hP hS hA]
        exact rc_unknown tc tid tok hP hS hA
      · by_cases hJ : J3 = tid
        · have hrc : replace_color tc tid false tok = (tok, []) := by
            unfold replace_color
            rw [if_neg h1, if_neg h2, if_neg h3]
            simp [hP, hS, hA, hJ]
          rw [hrc]
          rw [hrc]
        · rw [rc_foreign_accent tc tid tok J3 h1 h2 h3 hP hS hA hJ]
          exact rc_own tc tid false tc.accent (Or.inr (Or.inr rfl))
    · by_cases hJ : J2 = tid
      · have hrc : replace_color tc tid false tok = (tok, []) := by
          unfold replace_color
          rw [if_neg h1, if_neg h2, if_neg h3]
          simp [hP, hS, hJ]
        rw [hrc]
        rw [hrc]
      · rw [rc_foreign_secondary tc tid tok J2 h1 h2 h3 hP hS hJ]
        exact rc_own tc tid false tc.secondary (Or.inr (Or.inl rfl))
  · by_cases hJ : J1 = tid
    · have hrc : replace_color tc tid false tok = (tok, []) := by
        unfold replace_color
        rw [if_neg h1, if_neg h2, if_neg h3]
        simp [hP, hJ]
      rw [hrc]
      rw [hrc]
    · rw [rc_foreign_primary tc tid tok J1 h1 h2 h3 hP hJ]
      exact rc_own tc tid false tc.primary (Or.inl rfl)

lemma lookup_role_primary (c : String) (J : String)
    (h : lookup_role c = some (J, Role.primary)) : ALL_PRIMARIES c = some J := by
  unfold lookup_role at h
  rcases hP : ALL_PRIMARIES c with _ | j
  · rcases hS : ALL_SECONDARIES c with _ | j2 <;>
      rcases hA : ALL_ACCENTS c with _ | j3 <;> simp [hP, hS, hA] at h
  · simp [hP] at h
    rw [h]

lemma lookup_role_secondary (c : String) (J : String)
    (h : lookup_role c = some (J, Role.secondary)) :
    ALL_PRIMARIES c = none ∧ ALL_SECONDARIES c = some J := by
  unfold lookup_role at h
  rcases hP : ALL_PRIMARIES c with _ | j
  · rcases hS : ALL_SECONDARIES c with _ | j2
    · rcases hA : ALL_ACCENTS c with _ | j3 <;> simp [hP, hS, hA] at h
    · simp [hP, hS] at h
      exact ⟨rfl, by rw [h]⟩
  · simp [hP] at h

lemma lookup_role_accent (c : String) (J : String)
    (h : lookup_role c = some (J, Role.accent)) :
    ALL_PRIMARIES c = none ∧ ALL_SECONDARIES c = none ∧ ALL_ACCENTS c = some J := by
  unfold lookup_role at h
  rcases hP : ALL_PRIMARIES c with _ | j
  · rcases hS : ALL_SECONDARIES c with _ | j2
    · rcases hA : ALL_ACCENTS c with _ | j3
      · simp [hP, hS, hA] at h
      · simp [hP, hS, hA] at h
        exact ⟨rfl, rfl, by rw [h]⟩
    · simp [hP, hS] at h
  · simp [hP] at h

lemma lookup_role_none (c : String) (h : lookup_role c = none) :
    ALL_PRIMARIES c = none ∧ ALL_SECONDARIES c = none ∧ ALL_ACCENTS c = none := by
  unfold lookup_role at h
  rcases hP : ALL_PRIMARIES c with _ | j
  · rcases hS : ALL_SECONDARIES c with _ | j2
    · rcases hA : ALL_ACCENTS c with _ | j3
      · exact ⟨rfl, rfl, rfl⟩
      · simp [hP, hS, hA] at h
    · simp [hP, hS] at h
  · simp [hP] at h

/-- Rewriting a text that consists of exactly one well-formed color token is
the per-token `replace_color` call. -/
lemma replace_colors_token (tok target : String) (tc : Palette)
    (htc : getPalette target = some tc) (htok : isHexToken tok = true) (ra : Bool) :
    replace_colors tok target ra =
      Except.ok ((replace_color tc target ra tok).1, (replace_color tc target ra tok).2) := by
  obtain ⟨c1, c2, c3, c4, c5, c6, hdata, h1, h2, h3, h4, h5, h6⟩ :=
    isHexToken_destruct tok htok
  have hne : tok ≠ "" := by
    intro he
    rw [he] at hdata
    simp at hdata
  have htokmk : String.mk ['#', c1, c2, c3, c4, c5, c6] = tok := by
    rw [← hdata]
  unfold replace_colors
  rw [if_neg hne]
  simp only [htc]
  rw [show tok.data = ['#', c1, c2, c3, c4, c5, c6] from hdata]
  rw [scan_token tc target ra c1 c2 c3 c4 c5 c6 [] h1 h2 h3 h4 h5 h6, scan_nil]
  simp [htokmk]

/-- The change log of one `replace_color` call: it is empty exactly when the
token is returned unchanged, and a substitution appends exactly one record. -/
lemma rc_log (tc : Palette) (tid : String) (ra : Bool) (tok : String) :
    ((replace_color tc tid ra tok).1 = tok ↔ (replace_color tc tid ra tok).2 = []) ∧
    (replace_color tc tid ra tok).2.length =
      (if (replace_color tc tid ra tok).1 = tok then 0 else 1) := by
  by_cases h1 : lowerS tok = lowerS tc.primary
  · rw [rc_own tc tid ra tok (Or.inl h1)]
    simp
  by_cases h2 : lowerS tok = lowerS tc.secondary
  · rw [rc_own tc tid ra tok (Or.inr (Or.inl h2))]
    simp
  by_cases h3 : lowerS tok = lowerS tc.accent
  · rw [rc_own tc tid ra tok (Or.inr (Or.inr h3))]
    simp
  have hnp : tc.primary ≠ tok := fun he => h1 (congrArg lowerS he).symm
  have hns : tc.secondary ≠ tok := fun he => h2 (congrArg lowerS he).symm
  have hna : tc.accent ≠ tok := fun he => h3 (congrArg lowerS he).symm
  cases ra
  · rcases hP : ALL_PRIMARIES (lowerS tok) with _ | J1
    · rcases hS : ALL_SECONDARIES (lowerS tok) with _ | J2
      · rcases hA : ALL_ACCENTS (lowerS tok) with _ | J3
        · rw [rc_unknown tc tid tok hP hS hA]
          simp
        · by_cases hJ : J3 = tid
          · have hrc : replace_color tc tid false tok = (tok, []) := by
              unfold replace_color
              rw [if_neg h1, if_neg h2, if_neg h3]
              simp [hP, hS, hA, hJ]
            rw [hrc]
            simp
          · rw [rc_foreign_accent tc tid tok J3 h1 h2 h3 hP hS hA hJ]
            simp [hna]
      · by_cases hJ : J2 = tid
        · have hrc : replace_color tc tid false tok = (tok, []) := by
            unfold replace_color
            rw [if_neg h1, if_neg h2, if_neg h3]
            simp [hP, hS, hJ]
          rw [hrc]
          simp
        · rw [rc_foreign_secondary tc tid tok J2 h1 h2 h3 hP hS hJ]
          simp [hns]
    · by_cases hJ : J1 = tid
      · have hrc : replace_color tc tid false tok = (tok, []) := by
          unfold replace_color
          rw [if_neg h1, if_neg h2, if_neg h3]
          simp [hP, hJ]
        rw [hrc]
        simp
      · rw [rc_foreign_primary tc tid tok J1 h1 h2 h3 hP hJ]
        simp [hnp]
  · rw [rc_replaceall tc tid tok h1 h2 h3]
    simp [hnp]

/-- Claim C1: in KnownOnly mode, a token whose canonical lowercase form the
registry classifies (in primary-secondary-accent order) as belonging to an
institution J under role R, with J different from the registered target and
the color not one of the target's own three colors, is replaced by the
target's color for the same role R, and exactly one change record naming the
role, the old color, the source institution and the new color is appended. -/
theorem C1_known_only_foreign (tok target : String) (tc : Palette) (J : String) (R : Role)
    (htc : getPalette target = some tc) (htok : isHexToken tok = true)
    (hlr : lookup_role (lowerS tok) = some (J, R)) (hJ : J ≠ target)
    (h1 : lowerS tok ≠ lowerS tc.primary) (h2 : lowerS tok ≠ lowerS tc.secondary)
    (h3 : lowerS tok ≠ lowerS tc.accent) :
    replace_colors tok target false =
      Except.ok (roleColor tc R, [changeRecord R (lowerS tok) J tc]) := by
  rw [replace_colors_token tok target tc htc htok false]
  cases R
  · rw [rc_foreign_primary tc target tok J h1 h2 h3 (lookup_role_primary _ _ hlr) hJ]
    rfl
  · obtain ⟨hp, hs⟩ := lookup_role_secondary _ _ hlr
    rw [rc_foreign_secondary tc target tok J h1 h2 h3 hp hs hJ]
    rfl
  · obtain ⟨hp, hs, ha⟩ := lookup_role_accent _ _ hlr
    rw [rc_foreign_accent tc target tok J h1 h2 h3 hp hs ha hJ]
    rfl

theorem C1_witness :
    replace_colors "#005a95" "LAPC (LA Pierce)" false =
      Except.ok ("#BF2116", ["Primary: #005a95 (LACCD (District)) -> #BF2116"]) := by
  rw [C1_known_only_foreign "#005a95" "LAPC (LA Pierce)"
    ⟨"#BF2116", "#1F1F1F", "#FFFFFF", "Los Angeles Pierce College"⟩
    "LACCD (District)" Role.primary (by rfl) (by rfl) (by rfl)
    (by decide) (by decide) (by decide) (by decide)]
  rfl

/-- Claim C2: a token whose canonical lowercase form equals any of the
registered target's three role colors is left unchanged (with the input's own
casing) and no change record is appended, in both KnownOnly and ReplaceAll
modes. -/
theorem C2_own_colors_noop (tok target : String) (tc : Palette) (ra : Bool)
    (htc : getPalette target = some tc) (htok : isHexToken tok = true)
    (h : lowerS tok = lowerS tc.primary ∨ lowerS tok = lowerS tc.secondary ∨
      lowerS tok = lowerS tc.accent) :
    replace_colors tok target ra = Except.ok (tok, []) := by
  rw [replace_colors_token tok target tc htc htok ra, rc_own tc target ra tok h]

theorem C2_witness :
    replace_colors "#447d29" "ELAC (East LA)" false = Except.ok ("#447d29", []) ∧
    replace_colors "#447d29" "ELAC (East LA)" true = Except.ok ("#447d29", []) := by
  constructor
  · rw [C2_own_colors_noop "#447d29" "ELAC (East LA)"
      ⟨"#447D29", "#33511D", "#FDB913", "East Los Angeles College"⟩ false
      (by rfl) (by rfl) (Or.inl (by rfl))]
  · rw [C2_own_colors_noop "#447d29" "ELAC (East LA)"
      ⟨"#447D29", "#33511D", "#FDB913", "East Los Angeles College"⟩ true
      (by rfl) (by rfl) (Or.inl (by rfl))]

/-- Claim C3: in ReplaceAll mode, a token whose canonical lowercase form is
not one of the registered target's three role colors — known to the registry
or not — is replaced by the target's primary color, and exactly one change
record tagged "Color" is appended. -/
theorem C3_replaceall_to_primary (tok target : String) (tc : Palette)
    (htc : getPalette target = some tc) (htok : isHexToken tok = true)
    (h1 : lowerS tok ≠ lowerS tc.primary) (h2 : lowerS tok ≠ lowerS tc.secondary)
    (h3 : lowerS tok ≠ lowerS tc.accent) :
    replace_colors tok target true =
      Except.ok (tc.primary, ["Color: " ++ lowerS tok ++ " -> " ++ tc.primary]) := by
  rw [replace_colors_token tok target tc htc htok true,
    rc_replaceall tc target tok h1 h2 h3]

theorem C3_witness :
    replace_colors "#123456" "ELAC (East LA)" true =
      Except.ok ("#447D29", ["Color: #123456 -> #447D29"]) := by
  rw [C3_replaceall_to_primary "#123456" "ELAC (East LA)"
    ⟨"#447D29", "#33511D", "#FDB913", "East Los Angeles College"⟩
    (by rfl) (by rfl) (by decide) (by decide) (by decide)]
  rfl

/-- Claim C4: in KnownOnly mode, a token whose canonical lowercase form
appears in none of the three reverse indices is left unchanged exactly as it
appeared, and no change record is appended. -/
theorem C4_unknown_noop (tok target : String) (tc : Palette)
    (htc : getPalette target = some tc) (htok : isHexToken tok = true)
    (hlr : lookup_role (lowerS tok) = none) :
    replace_colors tok target false = Except.ok (tok, []) := by
  obtain ⟨hp, hs, ha⟩ := lookup_role_none _ hlr
  rw [replace_colors_token tok target tc htc htok false, rc_unknown tc target tok hp hs ha]

theorem C4_witness :
    replace_colors "#ABCDEF" "LACC (LA City)" false = Except.ok ("#ABCDEF", []) := by
  rw [C4_unknown_noop "#ABCDEF" "LACC (LA City)"
    ⟨"#C13C40", "#305589", "#112844", "Los Angeles City College"⟩
    (by rfl) (by rfl) (by rfl)]

/-- Claim C9: for empty input text the rewriter returns the text unchanged
with an empty change log before the registry is consulted, for every target
string — registered or not — and every mode. -/
theorem C9_empty_short_circuit (target : String) (ra : Bool) :
    replace_colors "" target ra = Except.ok ("", []) := rfl

/-- Claim C5 counterexample: the claim quantifies over every input text, but
for the empty text the rewriter returns the text unchanged with an empty log
even though the target id is not registered — no error is signalled. -/
theorem C5_counterexample :
    getPalette "Compton College" = none ∧
    replace_colors "" "Compton College" false = Except.ok ("", []) :=
  ⟨rfl, rfl⟩

/-- Claim C5 (amended): for every non-empty input text and every mode, a
target id that is not present in the registry fails synchronously with the
unknown-target error and never returns a defaulted result. -/
theorem C5_unknown_target_error (text target : String) (ra : Bool)
    (hne : text ≠ "") (htc : getPalette target = none) :
    replace_colors text target ra = Except.error target := by
  unfold replace_colors
  rw [if_neg hne]
  simp only [htc]

theorem C5_witness :
    replace_colors "x" "Compton College" true = Except.error "Compton College" := by
  rw [C5_unknown_target_error "x" "Compton College" true (by decide) (by rfl)]

/-- Claim C7: role classification consults the reverse indices in the fixed
order primary, secondary, accent, and the first index containing the color
wins: a color found under primary is substituted as a primary regardless of
the later indices, and a color present in both the secondary and the accent
index is substituted as a secondary. -/
theorem C7_role_priority (tok target : String) (tc : Palette)
    (htc : getPalette target = some tc) (htok : isHexToken tok = true)
    (h1 : lowerS tok ≠ lowerS tc.primary) (h2 : lowerS tok ≠ lowerS tc.secondary)
    (h3 : lowerS tok ≠ lowerS tc.accent) :
    (∀ J, ALL_PRIMARIES (lowerS tok) = some J → J ≠ target →
      replace_colors tok target false =
        Except.ok (tc.primary, [changeRecord Role.primary (lowerS tok) J tc])) ∧
    (∀ J J2, ALL_PRIMARIES (lowerS tok) = none →
      ALL_SECONDARIES (lowerS tok) = some J → ALL_ACCENTS (lowerS tok) = some J2 →
      J ≠ target →
      replace_colors tok target false =
        Except.ok (tc.secondary, [changeRecord Role.secondary (lowerS tok) J tc])) := by
  constructor
  · intro J hp hJ
    rw [replace_colors_token tok target tc htc htok false,
      rc_foreign_primary tc target tok J h1 h2 h3 hp hJ]
  · intro J J2 hp hs hA hJ
    rw [replace_colors_token tok target tc htc htok false,
      rc_foreign_secondary tc target tok J h1 h2 h3 hp hs hJ]

theorem C7_witness :
    replace_colors "#FFC72C" "ELAC (East LA)" false =
      Except.ok ("#33511D", ["Secondary: #ffc72c (LAVC (LA Valley)) -> #33511D"]) := by
  rw [(C7_role_priority "#FFC72C" "ELAC (East LA)"
      ⟨"#447D29", "#33511D", "#FDB913", "East Los Angeles College"⟩
      (by rfl) (by rfl) (by decide) (by decide) (by decide)).2
    "LAVC (LA Valley)" "LAHC (LA Harbor)" (by rfl) (by rfl) (by rfl) (by decide)]
  rfl

/-- Claim C8: for two tokens with the same canonical lowercase form the
rewriter makes identical classification decisions — the change records are
equal, and when a substitution happens both tokens get the same replacement —
and the replacement text of a substituted token is the registry's stored form
(one of the target's stored color strings), while an untouched token keeps
the input's own casing. -/
theorem C8_case_insensitivity (target : String) (tc : Palette) (ra : Bool)
    (tok tok2 : String)
    (htc : getPalette target = some tc) (hl : lowerS tok = lowerS tok2) :
    (replace_color tc target ra tok).2 = (replace_color tc target ra tok2).2 ∧
    ((replace_color tc target ra tok).2 ≠ [] →
      (replace_color tc target ra tok).1 = (replace_color tc target ra tok2).1 ∧
      ((replace_color tc target ra tok).1 = tc.primary ∨
       (replace_color tc target ra tok).1 = tc.secondary ∨
       (replace_color tc target ra tok).1 = tc.accent)) ∧
    ((replace_color tc target ra tok).2 = [] →
      (replace_color tc target ra tok).1 = tok ∧
      (replace_color tc target ra tok2).1 = tok2) := by
  by_cases h1 : lowerS tok = lowerS tc.primary
  · rw [rc_own tc target ra tok (Or.inl h1),
      rc_own tc target ra tok2 (Or.inl (hl.symm.trans h1))]
    simp
  by_cases h2 : lowerS tok = lowerS tc.secondary
  · rw [rc_own tc target ra tok (Or.inr (Or.inl h2)),
      rc_own tc target ra tok2 (Or.inr (Or.inl (hl.symm.trans h2)))]
    simp
  by_cases h3 : lowerS tok = lowerS tc.accent
  · rw [rc_own tc target ra tok (Or.inr (Or.inr h3)),
      rc_own tc target ra tok2 (Or.inr (Or.inr (hl.symm.trans h3)))]
    simp
  have h1' : lowerS tok2 ≠ lowerS tc.primary := fun he => h1 (hl.trans he)
  have h2' : lowerS tok2 ≠ lowerS tc.secondary := fun he => h2 (hl.trans he)
  have h3' : lowerS tok2 ≠ lowerS tc.accent := fun he => h3 (hl.trans he)
  cases ra
  · rcases hP : ALL_PRIMARIES (lowerS tok) with _ | J1
    · rcases hS : ALL_SECONDARIES (lowerS tok) with _ | J2
      · rcases hA : ALL_ACCENTS (lowerS tok) with _ | J3
        · rw [rc_unknown tc target tok hP hS hA,
            rc_unknown tc target tok2 (hl ▸ hP) (hl ▸ hS) (hl ▸ hA)]
          simp
        · by_cases hJ : J3 = target
          · have hrc : ∀ t : String, lowerS t = lowerS tok →
                replace_color tc target false t = (t, []) := by
              intro t ht
              unfold replace_color
              rw [if_neg (ht ▸ h1), if_neg (ht ▸ h2), if_neg (ht ▸ h3)]
              simp [ht ▸ hP, ht ▸ hS, ht ▸ hA, hJ]
            rw [hrc tok rfl, hrc tok2 hl.symm]
            simp
          · rw [rc_foreign_accent tc target tok J3 h1 h2 h3 hP hS hA hJ,
              rc_foreign_accent tc target tok2 J3 h1' h2' h3'
                (hl ▸ hP) (hl ▸ hS) (hl ▸ hA) hJ]
            simp [hl]
      · by_cases hJ : J2 = target
        · have hrc : ∀ t : String, lowerS t = lowerS tok →
              replace_color tc target false t = (t, []) := by
            intro t ht
            unfold replace_color
            rw [if_neg (ht ▸ h1), if_neg (ht ▸ h2), if_neg (ht ▸ h3)]
            simp [ht ▸ hP, ht ▸ hS, hJ]
          rw [hrc tok rfl, hrc tok2 hl.symm]
          simp
        · rw [rc_foreign_secondary tc target tok J2 h1 h2 h3 hP hS hJ,
            rc_foreign_secondary tc target tok2 J2 h1' h2' h3'
              (hl ▸ hP) (hl ▸ hS) hJ]
          simp [hl]
    · by_cases hJ : J1 = target
      · have hrc : ∀ t : String, lowerS t = lowerS tok →
            replace_color tc target false t = (t, []) := by
          intro t ht
          unfold replace_color
          rw [if_neg (ht ▸ h1), if_neg (ht ▸ h2), if_neg (ht ▸ h3)]
          simp [ht ▸ hP, hJ]
        rw [hrc tok rfl, hrc tok2 hl.symm]
        simp
      · rw [rc_foreign_primary tc target tok J1 h1 h2 h3 hP hJ,
          rc_foreign_primary tc target tok2 J1 h1' h2' h3' (hl ▸ hP) hJ]
        simp [hl]
  · rw [rc_replaceall tc target tok h1 h2 h3,
      rc_replaceall tc target tok2 h1' h2' h3']
    simp [hl]

theorem C8_witness :
    ((replace_color ⟨"#447D29", "#33511D", "#FDB913", "East Los Angeles College"⟩
        "ELAC (East LA)" false "#005A95").2 =
      (replace_color ⟨"#447D29", "#33511D", "#FDB913", "East Los Angeles College"⟩
        "ELAC (East LA)" false "#005a95").2) ∧
    (replace_color ⟨"#447D29", "#33511D", "#FDB913", "East Los Angeles College"⟩
        "ELAC (East LA)" false "#005A95").1 = "#447D29" := by
  have h := C8_case_insensitivity "ELAC (East LA)"
    ⟨"#447D29", "#33511D", "#FDB913", "East Los Angeles College"⟩ false
    "#005A95" "#005a95" (by rfl) (by rfl)
  refine ⟨h.1, ?_⟩
  have := (h.2.1 (by decide)).2
  rcases this with hp | hs | ha
  · exact hp
  · exact absurd hs (by decide)
  · exact absurd ha (by decide)

lemma string_eq_iff_data (s t : String) : s = t ↔ s.data = t.data := by
  constructor
  · intro h
    rw [h]
  · intro h
    cases s
    cases t
    exact congrArg String.mk h

lemma isHexToken_mask (s : String) (h : isHexToken s = true) :
    s.data.map isHexDigit = [false, true, true, true, true, true, true] := by
  obtain ⟨c1, c2, c3, c4, c5, c6, hdata, h1, h2, h3, h4, h5, h6⟩ :=
    isHexToken_destruct s h
  rw [hdata]
  simp [h1, h2, h3, h4, h5, h6]
  decide

lemma rc_valid (tc : Palette) (tid : String) (ra : Bool) (tok : String)
    (hvp : isHexToken tc.primary = true) (hvs : isHexToken tc.secondary = true)
    (hva : isHexToken tc.accent = true) (htok : isHexToken tok = true) :
    isHexToken (replace_color tc tid ra tok).1 = true := by
  rcases rc_out tc tid ra tok with h | h | h | h <;> rw [h] <;> assumption

lemma startsTok_destruct (cs : List Char) (h : startsTok cs = true) :
    ∃ c1 c2 c3 c4 c5 c6 rest, cs = '#' :: c1 :: c2 :: c3 :: c4 :: c5 :: c6 :: rest ∧
      isHexDigit c1 = true ∧ isHexDigit c2 = true ∧ isHexDigit c3 = true ∧
      isHexDigit c4 = true ∧ isHexDigit c5 = true ∧ isHexDigit c6 = true := by
  rcases cs with _ | ⟨c, l⟩
  · simp [startsTok] at h
  · unfold startsTok at h
    simp only [Bool.and_eq_true, decide_eq_true_eq] at h
    obtain ⟨⟨hc, hlen⟩, hall⟩ := h
    subst hc
    rcases l with _ | ⟨c1, _ | ⟨c2, _ | ⟨c3, _ | ⟨c4, _ | ⟨c5, _ | ⟨c6, rest⟩⟩⟩⟩⟩⟩
    · simp at hlen
    · simp at hlen
    · simp at hlen
    · simp at hlen
    · simp at hlen
    · simp at hlen
    · simp only [List.take_succ_cons, List.take_zero, List.all_cons, List.all_nil,
        Bool.and_eq_true, Bool.and_true] at hall
      exact ⟨c1, c2, c3, c4, c5, c6, rest, rfl, hall.1, hall.2.1, hall.2.2.1,
        hall.2.2.2.1, hall.2.2.2.2.1, hall.2.2.2.2.2⟩

lemma startsTok_of_mask (c : Char) (l l' : List Char)
    (hm : l.map isHexDigit = l'.map isHexDigit) :
    startsTok (c :: l) = startsTok (c :: l') := by
  have hlen : l.length = l'.length := by
    have := congrArg List.length hm
    simpa using this
  have htk : (l.take 6).length = (l'.take 6).length := by
    simp [hlen]
  have he : ∀ x : List Char, x.all isHexDigit = (x.map isHexDigit).all id := by
    intro x
    induction x with
    | nil => rfl
    | cons a as ih => simp [List.all_cons, ih]
  have hall : (l.take 6).all isHexDigit = (l'.take 6).all isHexDigit := by
    rw [he (l.take 6), he (l'.take 6), List.map_take, List.map_take, hm]
  simp only [startsTok]
  rw [htk, hall]

/-- The scan maps each character position to one of the same hex-digit class:
tokens go to tokens (the replacement is itself a `#` plus six hex digits) and
other characters are untouched. -/
lemma scan_mask_aux (tc : Palette) (tid : String) (ra : Bool)
    (hvp : isHexToken tc.primary = true) (hvs : isHexToken tc.secondary = true)
    (hva : isHexToken tc.accent = true) :
    ∀ n cs, cs.length ≤ n →
      ((scan tc tid ra cs).1).map isHexDigit = cs.map isHexDigit := by
  intro n
  induction n with
  | zero =>
    intro cs hn
    have hcs : cs = [] := List.eq_nil_of_length_eq_zero (Nat.le_zero.mp hn)
    subst hcs
    rw [scan_nil]
  | succ n ih =>
    intro cs hn
    rcases hcs : cs with _ | ⟨c, l⟩
    · rw [scan_nil]
    · subst hcs
      by_cases hs : startsTok (c :: l) = true
      · obtain ⟨c1, c2, c3, c4, c5, c6, rest, hshape, h1, h2, h3, h4, h5, h6⟩ :=
          startsTok_destruct _ hs
        cases hshape
        rw [scan_token tc tid ra c1 c2 c3 c4 c5 c6 rest h1 h2 h3 h4 h5 h6]
        have hrest : rest.length ≤ n := by
          simp only [List.length_cons] at hn
          omega
        have hntk : isHexToken (replace_color tc tid ra
            (String.mk ['#', c1, c2, c3, c4, c5, c6])).1 = true :=
          rc_valid tc tid ra _ hvp hvs hva (isHexToken_mk c1 c2 c3 c4 c5 c6 h1 h2 h3 h4 h5 h6)
        have hmask := isHexToken_mask _ hntk
        simp only [List.map_append, hmask, ih rest hrest]
        simp [h1, h2, h3, h4, h5, h6]
        decide
      · have hs' : startsTok (c :: l) = false := by
          simpa using hs
        rw [scan_advance tc tid ra c l hs']
        have hl : l.length ≤ n := by
          simp only [List.length_cons] at hn
          omega
        simp only [List.map_cons, ih l hl]

lemma scan_mask (tc : Palette) (tid : String) (ra : Bool) (cs : List Char)
    (hvp : isHexToken tc.primary = true) (hvs : isHexToken tc.secondary = true)
    (hva : isHexToken tc.accent = true) :
    ((scan tc tid ra cs).1).map isHexDigit = cs.map isHexDigit :=
  scan_mask_aux tc tid ra hvp hvs hva cs.length cs (Nat.le_refl _)

lemma scan_idem_aux (tc : Palette) (tid : String)
    (hvp : isHexToken tc.primary = true) (hvs : isHexToken tc.secondary = true)
    (hva : isHexToken tc.accent = true) :
    ∀ n cs, cs.length ≤ n →
      scan tc tid false ((scan tc tid false cs).1) = ((scan tc tid false cs).1, []) := by
  intro n
  induction n with
  | zero =>
    intro cs hn
    have hcs : cs = [] := List.eq_nil_of_length_eq_zero (Nat.le_zero.mp hn)
    subst hcs
    rw [scan_nil, scan_nil]
  | succ n ih =>
    intro cs hn
    rcases hcs : cs with _ | ⟨c, l⟩
    · rw [scan_nil, scan_nil]
    · subst hcs
      by_cases hs : startsTok (c :: l) = true
      · obtain ⟨c1, c2, c3, c4, c5, c6, rest, hshape, h1, h2, h3, h4, h5, h6⟩ :=
          startsTok_destruct _ hs
        cases hshape
        rw [scan_token tc tid false c1 c2 c3 c4 c5 c6 rest h1 h2 h3 h4 h5 h6]
        have hvtok : isHexToken (String.mk ['#', c1, c2, c3, c4, c5, c6]) = true :=
          isHexToken_mk c1 c2 c3 c4 c5 c6 h1 h2 h3 h4 h5 h6
        have hntk : isHexToken (replace_color tc tid false
            (String.mk ['#', c1, c2, c3, c4, c5, c6])).1 = true :=
          rc_valid tc tid false _ hvp hvs hva hvtok
        obtain ⟨d1, d2, d3, d4, d5, d6, hdata, g1, g2, g3, g4, g5, g6⟩ :=
          isHexToken_destruct _ hntk
        rw [hdata]
        simp only [List.cons_append, List.nil_append]
        rw [scan_token tc tid false d1 d2 d3 d4 d5 d6 _ g1 g2 g3 g4 g5 g6]
        have hmk : String.mk ['#', d1, d2, d3, d4, d5, d6] =
            (replace_color tc tid false (String.mk ['#', c1, c2, c3, c4, c5, c6])).1 := by
          rw [← hdata]
        rw [hmk]
        rw [rc_idem tc tid (String.mk ['#', c1, c2, c3, c4, c5, c6])]
        have hrest : rest.length ≤ n := by
          simp only [List.length_cons] at hn
          omega
        rw [ih rest hrest]
        simp [hdata]
      · have hs' : startsTok (c :: l) = false := by
          simpa using hs
        rw [scan_advance tc tid false c l hs']
        have hm := scan_mask tc tid false l hvp hvs hva
        have hs'' : startsTok (c :: (scan tc tid false l).1) = false := by
          rw [startsTok_of_mask c _ l hm]
          exact hs'
        rw [scan_advance tc tid false c _ hs'']
        have hl : l.length ≤ n := by
          simp only [List.length_cons] at hn
          omega
        rw [ih l hl]

lemma scan_idem (tc : Palette) (tid : String) (cs : List Char)
    (hvp : isHexToken tc.primary = true) (hvs : isHexToken tc.secondary = true)
    (hva : isHexToken tc.accent = true) :
    scan tc tid false ((scan tc tid false cs).1) = ((scan tc tid false cs).1, []) :=
  scan_idem_aux tc tid hvp hvs hva cs.length cs (Nat.le_refl _)

/-- Claim C6: rewriting in KnownOnly mode is idempotent — feeding the output
text of one rewrite back into the rewriter with the same registered target
returns that same text with an empty change log. -/
theorem C6_idempotent (T target : String) (tc : Palette) (out : String) (log : List String)
    (htc : getPalette target = some tc)
    (h : replace_colors T target false = Except.ok (out, log)) :
    replace_colors out target false = Except.ok (out, []) := by
  obtain ⟨hvp, hvs, hva⟩ := palette_valid target tc htc
  unfold replace_colors at h
  by_cases hT : T = ""
  · rw [if_pos hT] at h
    simp only [Except.ok.injEq, Prod.mk.injEq] at h
    have hout : out = "" := by
      rw [← h.1, hT]
    rw [hout]
    rfl
  · rw [if_neg hT] at h
    simp only [htc, Except.ok.injEq, Prod.mk.injEq] at h
    obtain ⟨hout, hlog⟩ := h
    unfold replace_colors
    by_cases ho : out = ""
    · rw [if_pos ho, ho]
    · rw [if_neg ho]
      simp only [htc]
      have hod : out.data = (scan tc target false T.data).1 := by
        rw [← hout]
      rw [hod, scan_idem tc target T.data hvp hvs hva]
      rw [hout]

theorem C6_witness :
    replace_colors "#BF2116" "LAPC (LA Pierce)" false = Except.ok ("#BF2116", []) := by
  rw [C6_idempotent "#005a95" "LAPC (LA Pierce)"
    ⟨"#BF2116", "#1F1F1F", "#FFFFFF", "Los Angeles Pierce College"⟩
    "#BF2116" ["Primary: #005a95 (LACCD (District)) -> #BF2116"] (by rfl) (by rfl)]

lemma scan_log_aux (tc : Palette) (tid : String) (ra : Bool)
    (hvp : isHexToken tc.primary = true) (hvs : isHexToken tc.secondary = true)
    (hva : isHexToken tc.accent = true) :
    ∀ n cs, cs.length ≤ n →
      (((scan tc tid ra cs).1 = cs) ↔ ((scan tc tid ra cs).2 = [])) ∧
      ((scan tc tid ra cs).2).length =
        ((tokens cs).filter
          (fun t => decide ((replace_color tc tid ra t).1 ≠ t))).length := by
  intro n
  induction n with
  | zero =>
    intro cs hn
    have hcs : cs = [] := List.eq_nil_of_length_eq_zero (Nat.le_zero.mp hn)
    subst hcs
    rw [scan_nil, tokens_nil]
    simp
  | succ n ih =>
    intro cs hn
    rcases hcs : cs with _ | ⟨c, l⟩
    · rw [scan_nil, tokens_nil]
      simp
    · subst hcs
      by_cases hs : startsTok (c :: l) = true
      · obtain ⟨c1, c2, c3, c4, c5, c6, rest, hshape, h1, h2, h3, h4, h5, h6⟩ :=
          startsTok_destruct _ hs
        cases hshape
        rw [scan_token tc tid ra c1 c2 c3 c4 c5 c6 rest h1 h2 h3 h4 h5 h6,
          tokens_token c1 c2 c3 c4 c5 c6 rest h1 h2 h3 h4 h5 h6]
        have hrest : rest.length ≤ n := by
          simp only [List.length_cons] at hn
          omega
        obtain ⟨ih1, ih2⟩ := ih rest hrest
        have hvtok : isHexToken (String.mk ['#', c1, c2, c3, c4, c5, c6]) = true :=
          isHexToken_mk c1 c2 c3 c4 c5 c6 h1 h2 h3 h4 h5 h6
        have hntk : isHexToken (replace_color tc tid ra
            (String.mk ['#', c1, c2, c3, c4, c5, c6])).1 = true :=
          rc_valid tc tid ra _ hvp hvs hva hvtok
        have hlen7 : (replace_color tc tid ra
            (String.mk ['#', c1, c2, c3, c4, c5, c6])).1.data.length =
            (String.mk ['#', c1, c2, c3, c4, c5, c6]).data.length := by
          obtain ⟨d1, d2, d3, d4, d5, d6, hdata, _⟩ := isHexToken_destruct _ hntk
          rw [hdata]
          rfl
        have hsplit : ('#' :: c1 :: c2 :: c3 :: c4 :: c5 :: c6 :: rest) =
            (String.mk ['#', c1, c2, c3, c4, c5, c6]).data ++ rest := rfl
        obtain ⟨hrc1, hrc2⟩ := rc_log tc tid ra (String.mk ['#', c1, c2, c3, c4, c5, c6])
        constructor
        · rw [hsplit]
          constructor
          · intro he
            obtain ⟨hA, hB⟩ := List.append_inj he hlen7
            have hx : (replace_color tc tid ra
                (String.mk ['#', c1, c2, c3, c4, c5, c6])).2 = [] :=
              hrc1.mp ((string_eq_iff_data _ _).mpr hA)
            rw [hx, ih1.mp hB]
            rfl
          · intro he
            rw [List.append_eq_nil] at he
            have hA : (replace_color tc tid ra
                (String.mk ['#', c1, c2, c3, c4, c5, c6])).1 =
                String.mk ['#', c1, c2, c3, c4, c5, c6] := hrc1.mpr he.1
            rw [hA, ih1.mpr he.2]
        · rw [List.length_append, ih2, List.filter_cons]
          by_cases heq : (replace_color tc tid ra
              (String.mk ['#', c1, c2, c3, c4, c5, c6])).1 =
              String.mk ['#', c1, c2, c3, c4, c5, c6]
          · rw [hrc2, if_pos heq]
            simp [heq]
          · rw [hrc2, if_neg heq]
            simp [heq]
            omega
      · have hs' : startsTok (c :: l) = false := by
          simpa using hs
        rw [scan_advance tc tid ra c l hs', tokens_advance c l hs']
        have hl : l.length ≤ n := by
          simp only [List.length_cons] at hn
          omega
        obtain ⟨ih1, ih2⟩ := ih l hl
        refine ⟨?_, ih2⟩
        simp only [List.cons.injEq, true_and]
        exact ih1

/-- Claim C10: the rewritten text differs from the input exactly when the
change log is non-empty, and the number of change records equals the number
of matched token occurrences whose replacement differs from the token. -/
theorem C10_log_characterizes_change (T target : String) (tc : Palette) (ra : Bool)
    (out : String) (log : List String)
    (htc : getPalette target = some tc)
    (h : replace_colors T target ra = Except.ok (out, log)) :
    ((out = T) ↔ (log = [])) ∧
    log.length = ((tokens T.data).filter
      (fun t => decide ((replace_color tc target ra t).1 ≠ t))).length := by
  obtain ⟨hvp, hvs, hva⟩ := palette_valid target tc htc
  unfold replace_colors at h
  by_cases hT : T = ""
  · rw [if_pos hT] at h
    simp only [Except.ok.injEq, Prod.mk.injEq] at h
    obtain ⟨hout, hlog⟩ := h
    subst hT
    rw [← hout, ← hlog]
    simp [tokens_nil]
  · rw [if_neg hT] at h
    simp only [htc, Except.ok.injEq, Prod.mk.injEq] at h
    obtain ⟨hout, hlog⟩ := h
    obtain ⟨hm1, hm2⟩ := scan_log_aux tc target ra hvp hvs hva T.data.length T.data
      (Nat.le_refl _)
    constructor
    · rw [← hout, ← hlog]
      rw [string_eq_iff_data (String.mk (scan tc target ra T.data).1) T]
      exact hm1
    · rw [← hlog]
      exact hm2

theorem C10_witness :
    ((("#33511D" : String) = "#ffc72c") ↔
      ((["Secondary: #ffc72c (LAVC (LA Valley)) -> #33511D"] : List String) = [])) ∧
    (["Secondary: #ffc72c (LAVC (LA Valley)) -> #33511D"] : List String).length =
      ((tokens ("#ffc72c" : String).data).filter
        (fun t => decide ((replace_color
          ⟨"#447D29", "#33511D", "#FDB913", "East Los Angeles College"⟩
          "ELAC (East LA)" false t).1 ≠ t))).length :=
  C10_log_characterizes_change "#ffc72c" "ELAC (East LA)"
    ⟨"#447D29", "#33511D", "#FDB913", "East Los Angeles College"⟩ false
    "#33511D" ["Secondary: #ffc72c (LAVC (LA Valley)) -> #33511D"]
    (by rfl) (by rfl)

